import Mathlib

/-!
# Script Version Store — shallow embedding

This file embeds the optimistic-concurrency script-versioning subsystem of the
iDive web application and proves/refutes the specified properties against it.

Embedded request handlers (HTTP plumbing, cookie auth and prompt construction
are outside the component boundary; every operation below starts where the
handler has an authenticated owner in hand):

* `patchPresenterScript` — `PATCH /api/presenters/[id]/script` (save with
  optimistic-concurrency check);
* `ensurePresenterScript` — `GET /api/presenters/[id]/script` (lazy creation
  with bootstrap history entry);
* `listVersions` / `postVersionSnapshot` — `GET`/`POST`
  `/api/presenters/[id]/versions`;
* `restorePost` — `POST /api/presenters/[id]/versions/[versionId]/restore`;
* `patchScriptDirect` — `PATCH /api/scripts/[scriptId]` (direct save);
* `transformPost` — `POST /api/scripts/[scriptId]/transform` (AI rewrite);
* `generatePost` — validation/commit tail of `POST /api/presenters/[id]/generate`.

State model: the `presenter_scripts` table is tracked as a single optional row
(every claim concerns operations against one document), `presenter_script_versions`
as a list of rows, and a logical clock supplies fresh row ids and `created_at`
stamps.  The text-generation collaborator and JSON parsing of its output are
abstract parameters (`GenResult`, `ParseResult`) mirroring the branch structure
of the handlers.
-/

namespace IDive

/-- One row of the `presenter_scripts` table
(`id, presenter_id, content, language, version, updated_at, updated_by`). -/
structure Script where
  id : Nat
  presenterId : Nat
  content : String
  language : String
  version : Int
  updatedAt : Nat
  updatedBy : Nat
deriving Repr, DecidableEq

/-- One row of the `presenter_script_versions` table
(`id, script_id, version, source, meta.reason, meta.phase, content, created_at, created_by`).
The `meta` JSON column is tracked by its `reason` and `phase` fields, the only
ones the handlers write and the spec mentions. -/
structure HEntry where
  id : Nat
  scriptId : Nat
  version : Int
  source : String
  metaReason : String
  metaPhase : Option String
  content : String
  createdAt : Nat
  createdBy : Nat
deriving Repr, DecidableEq

/-- Database state: the document row, the history rows, and a logical clock
that supplies fresh ids and `created_at` stamps for new rows. -/
structure DB where
  script : Option Script
  history : List HEntry
  clock : Nat
deriving Repr, DecidableEq

/-- Does some history row already occupy `(script_id, version)`? -/
def hasVersion (h : List HEntry) (sid : Nat) (v : Int) : Bool :=
  h.any fun e => e.scriptId == sid && e.version == v

/-- A freshly built history row (id and `created_at` from the clock). -/
def freshEntry (db : DB) (sid : Nat) (v : Int) (src reason : String)
    (phase : Option String) (content : String) (uid : Nat) : HEntry :=
  { id := db.clock, scriptId := sid, version := v, source := src,
    metaReason := reason, metaPhase := phase, content := content,
    createdAt := db.clock, createdBy := uid }

/-- Modelled from the spec: the `presenter_script_versions` table (not shipped
with the handlers) carries the uniqueness constraint on `(script_id, version)`
of invariant I2 — also assumed by every `onConflict: "script_id,version"`
upsert and by the comment `ignore duplicates via unique (script_id, version)`
in the save handler.  A plain `insert` that collides on it fails (`none`). -/
def insertHistory (db : DB) (sid : Nat) (v : Int) (src reason : String)
    (phase : Option String) (content : String) (uid : Nat) : Option (DB × HEntry) :=
  if hasVersion db.history sid v then none
  else
    let e := freshEntry db sid v src reason phase content uid
    some ({ db with history := e :: db.history, clock := db.clock + 1 }, e)

/-- `upsert(..., { onConflict: "script_id,version", ignoreDuplicates: true })`:
a duplicate `(script_id, version)` leaves the table untouched and reports no
error. -/
def upsertHistory (db : DB) (sid : Nat) (v : Int) (src reason : String)
    (phase : Option String) (content : String) (uid : Nat) : DB :=
  if hasVersion db.history sid v then db
  else { db with history := freshEntry db sid v src reason phase content uid :: db.history,
                 clock := db.clock + 1 }

/-- `update(fields).eq(...)` on `presenter_scripts`: apply `f` to the row when
`cond` matches it; also return the updated row (`none` when zero rows matched,
which is what a trailing `.select().single()` turns into an error). -/
def updateScriptWhere (db : DB) (cond : Script → Bool) (f : Script → Script) :
    DB × Option Script :=
  match db.script with
  | some s => if cond s then ({ db with script := some (f s) }, some (f s)) else (db, none)
  | none => (db, none)

/-- `.from("presenter_scripts").select(..).eq("presenter_id", pid).maybeSingle()`. -/
def findByPresenter (db : DB) (pid : Nat) : Option Script :=
  db.script.bind fun s => if s.presenterId == pid then some s else none

/-- `.from("presenter_scripts").select(..).eq("id", sid).maybeSingle()`. -/
def findById (db : DB) (sid : Nat) : Option Script :=
  db.script.bind fun s => if s.id == sid then some s else none

/-- JavaScript `String.prototype.trim()`: strip leading and trailing
whitespace (structural on the character list, so that concrete runs reduce). -/
def jsTrim (s : String) : String :=
  String.mk (((s.data.dropWhile Char.isWhitespace).reverse.dropWhile
    Char.isWhitespace).reverse)

/-- Transport-level outcome of a handler, keyed by the JSON `error` tag and
HTTP status the handlers produce. -/
inductive Resp where
  | ok (script : Script)
  | okEntry (entry : HEntry)
  | conflict (serverVersion : Int) (serverContent : String)
  | err (status : Nat) (tag : String)
deriving Repr, DecidableEq

/-- The save body's `version` field after the handler's coercion:
absent, a number, or a non-numeric string (`NaN`). -/
inductive VersionField where
  | vnone
  | vnum (v : Int)
  | vnan
deriving Repr, DecidableEq

/-- Parsed body of the save `PATCH` (`content`, `force === true`, `version`);
`content = none` models a body whose `content` is not a string. -/
structure SaveBody where
  content : Option String
  force : Bool
  version : VersionField
deriving Repr, DecidableEq

/-- `!force && clientVersion !== null && (current.version ?? 1) !== clientVersion`. -/
def conflictCheck (force : Bool) (vf : VersionField) (current : Script) : Bool :=
  !force && (match vf with
    | .vnum v => current.version != v
    | .vnan => true
    | .vnone => false)

/-- Check-and-write tail of the save handler, operating on a row `current`
read earlier: reject with `conflict` when `conflictCheck` fires, otherwise
update the row keyed on `id = current.id` alone (the handler places no
condition on `version`) and append the history row best-effort. -/
def saverWrite (db : DB) (uid : Nat) (force : Bool) (vf : VersionField)
    (newContent : String) (src reason : String) (current : Script) : DB × Resp :=
  if conflictCheck force vf current then
    (db, .conflict current.version current.content)
  else
    let nextVersion := current.version + 1
    let wr := updateScriptWhere db (fun s => s.id == current.id)
      (fun s => { s with content := newContent, version := nextVersion,
                         updatedAt := db.clock, updatedBy := uid })
    match wr.2 with
    | none => (wr.1, .err 500 "internal_error")
    | some updated =>
      (upsertHistory wr.1 updated.id updated.version src reason none updated.content uid,
       .ok updated)

/-- `PATCH /api/presenters/[id]/script`: validate the body, read the current
row, then run the optimistic-concurrency check and the write. -/
def patchPresenterScript (db : DB) (uid pid : Nat) (b : SaveBody) : DB × Resp :=
  match b.content with
  | none => (db, .err 400 "invalid_body")
  | some content =>
    match b.version with
    | .vnan => (db, .err 400 "invalid_body")
    | vf =>
      match findByPresenter db pid with
      | none => (db, .err 404 "script_missing")
      | some current => saverWrite db uid b.force vf content "autosave" "save" current

/-- `PATCH /api/scripts/[scriptId]`: no `version` or `force` input is read,
no comparison is made — the row is overwritten unconditionally. -/
def patchScriptDirect (db : DB) (uid sid : Nat) (content? : Option String) : DB × Resp :=
  match content? with
  | none => (db, .err 400 "invalid_body")
  | some content =>
    match findById db sid with
    | none => (db, .err 404 "NOT_FOUND")
    | some current =>
      let nextVersion := current.version + 1
      let wr := updateScriptWhere db (fun s => s.id == sid)
        (fun s => { s with content := content, version := nextVersion,
                           updatedAt := db.clock, updatedBy := uid })
      match wr.2 with
      | none => (wr.1, .err 500 "script_update_failed")
      | some updated =>
        (upsertHistory wr.1 sid updated.version "snapshot" "patch" none updated.content uid,
         .ok updated)

/-- Modelled from the spec: the `presenter_scripts` insert in the `GET`
handler omits `version`; the table default — "version … starts at 1" (§3) —
assigns it. -/
def defaultVersion : Int := 1

/-- `GET /api/presenters/[id]/script`: return the row, lazily creating it
(empty content, language `"ro"`, default version) with a bootstrap history
upsert when absent. -/
def ensurePresenterScript (db : DB) (uid pid : Nat) : DB × Resp :=
  match findByPresenter db pid with
  | some s => (db, .ok s)
  | none =>
    let s : Script := { id := db.clock, presenterId := pid, content := "",
                        language := "ro", version := defaultVersion,
                        updatedAt := db.clock, updatedBy := uid }
    let db1 : DB := { db with script := some s, clock := db.clock + 1 }
    (upsertHistory db1 s.id s.version "snapshot" "bootstrap" none s.content uid, .ok s)

/-- Newest-first ordering on history rows (`order("created_at", { ascending: false })`). -/
def newerFirst (a b : HEntry) : Prop := b.createdAt ≤ a.createdAt

instance : DecidableRel newerFirst :=
  fun a b => inferInstanceAs (Decidable (b.createdAt ≤ a.createdAt))

instance : IsTotal HEntry newerFirst :=
  ⟨fun a b => Nat.le_total b.createdAt a.createdAt⟩

instance : IsTrans HEntry newerFirst :=
  ⟨fun _ _ _ hab hbc => Nat.le_trans hbc hab⟩

/-- `Math.min(Math.max(Number(url.searchParams.get("limit") ?? 30), 1), 200)`
(numeric requests; absent means `30`). -/
def effLimit (p : Option Int) : Int := min (max (p.getD 30) 1) 200

/-- `GET /api/presenters/[id]/versions`: the document's history rows,
newest-first by `created_at`, truncated to the clamped limit. -/
def listVersions (db : DB) (pid : Nat) (p : Option Int) : List HEntry :=
  match findByPresenter db pid with
  | none => []
  | some s =>
    (List.insertionSort newerFirst (db.history.filter fun e => e.scriptId == s.id)).take
      (effLimit p).toNat

/-- `POST /api/presenters/[id]/versions`: a manual checkpoint at the current
content/version, written with a plain `insert` whose failure is thrown
(`internal_error`, status 500). -/
def postVersionSnapshot (db : DB) (uid pid : Nat) : DB × Resp :=
  match findByPresenter db pid with
  | none => (db, .err 500 "internal_error")
  | some s =>
    match insertHistory db s.id s.version "snapshot" "manual" none s.content uid with
    | none => (db, .err 500 "internal_error")
    | some (db1, e) => (db1, .okEntry e)

/-- `POST /api/presenters/[id]/versions/[versionId]/restore`: pre-restore
safety snapshot (plain insert at `nextVersion`), unconditional row update,
then a second plain insert at the same `nextVersion`. -/
def restorePost (db : DB) (uid pid vid : Nat) : DB × Resp :=
  match findByPresenter db pid with
  | none => (db, .err 404 "script_missing")
  | some script =>
    match db.history.find? (fun e => e.id == vid && e.scriptId == script.id) with
    | none => (db, .err 404 "version_not_found")
    | some vRow =>
      let targetContent := vRow.content
      let nextVersion := script.version + 1
      match insertHistory db script.id nextVersion "snapshot" "pre_restore_snapshot"
          none script.content uid with
      | none => (db, .err 500 "internal_error")
      | some (db1, _) =>
        let wr := updateScriptWhere db1 (fun s => s.id == script.id)
          (fun s => { s with content := targetContent, version := nextVersion,
                             updatedAt := db1.clock, updatedBy := uid })
        match insertHistory wr.1 script.id nextVersion "snapshot" "restore"
            none targetContent uid with
        | none => (wr.1, .err 500 "internal_error")
        | some (db3, _) =>
          (db3, .ok { id := script.id, presenterId := pid, content := targetContent,
                      language := script.language, version := nextVersion,
                      updatedAt := wr.1.clock, updatedBy := uid })

/-- Outcome of the `openai.responses.create` call: it either throws or yields
an `output_text`. -/
inductive GenResult where
  | gthrow
  | gout (text : String)

/-- Outcome of `JSON.parse` plus `String(parsed?.finalText ?? "")` on the
generator's output: invalid JSON, or the (possibly empty) `finalText`. -/
inductive ParseResult where
  | pinvalid
  | pok (finalText : String)

/-- `POST /api/scripts/[scriptId]/transform`: pre-phase snapshot upsert, then
the generator; any generation failure returns before the row update; a
non-empty `finalText` is committed with no further validation. -/
def transformPost (db : DB) (uid sid : Nat) (instruction : String)
    (gen : GenResult) (parse : String → ParseResult) : DB × Resp :=
  if jsTrim instruction = "" then (db, .err 400 "invalid_body")
  else
    match findById db sid with
    | none => (db, .err 404 "NOT_FOUND")
    | some script =>
      let prevVersion := script.version
      let nextVersion := prevVersion + 1
      let baseText := script.content
      let db1 := upsertHistory db sid prevVersion "snapshot" "transform" (some "pre")
        baseText uid
      match gen with
      | .gthrow => (db1, .err 502 "openai_failed")
      | .gout t =>
        let jsonText := jsTrim t
        if jsonText = "" then (db1, .err 500 "ai_empty_output")
        else
          match parse jsonText with
          | .pinvalid => (db1, .err 500 "ai_invalid_json")
          | .pok ftRaw =>
            let finalText := jsTrim ftRaw
            if finalText = "" then (db1, .err 500 "ai_missing_finalText")
            else
              let wr := updateScriptWhere db1 (fun s => s.id == sid)
                (fun s => { s with content := finalText, version := nextVersion,
                                   updatedAt := db1.clock, updatedBy := uid })
              match wr.2 with
              | none => (wr.1, .err 500 "script_update_failed")
              | some updated =>
                (upsertHistory wr.1 sid updated.version "snapshot" "transform"
                   (some "post") updated.content uid,
                 .ok updated)

/-- `finalText.replace(/\s+/g, " ")` — collapse every whitespace run to one
space; `prevWs` records whether the previous character belonged to a run. -/
def collapseWsAux : Bool → List Char → List Char
  | _, [] => []
  | prevWs, c :: rest =>
    if c.isWhitespace then
      (if prevWs then [] else [' ']) ++ collapseWsAux true rest
    else c :: collapseWsAux false rest

/-- `finalText.replace(/\s+/g, " ").trim()`. -/
def normalizeWs (s : String) : String :=
  jsTrim (String.mk (collapseWsAux false s.data))

/-- Validation/commit tail of `POST /api/presenters/[id]/generate` (from the
generator call on; prompt assembly and language detection feed only the
generator): unlike `transformPost`, a whitespace-normalized `finalText`
shorter than 80 characters is rejected with `ai_output_too_short` before any
database write. -/
def generatePost (db : DB) (uid pid : Nat) (languageTag : String)
    (gen : GenResult) (parse : String → ParseResult) : DB × Resp :=
  match findByPresenter db pid with
  | none => (db, .err 404 "script_missing")
  | some script =>
    match gen with
    | .gthrow => (db, .err 502 "openai_failed")
    | .gout t =>
      let jsonText := jsTrim t
      if jsonText = "" then (db, .err 500 "ai_empty_output")
      else
        match parse jsonText with
        | .pinvalid => (db, .err 500 "ai_invalid_json")
        | .pok ftRaw =>
          let finalText := jsTrim ftRaw
          if finalText = "" then (db, .err 500 "ai_missing_finalText")
          else
            let cleaned := normalizeWs finalText
            if cleaned.length < 80 then (db, .err 422 "ai_output_too_short")
            else
              let prevVersion := script.version
              let nextVersion := prevVersion + 1
              let db1 := upsertHistory db script.id prevVersion "snapshot" "generate"
                (some "pre") script.content uid
              let wr := updateScriptWhere db1 (fun s => s.id == script.id)
                (fun s => { s with content := finalText, version := nextVersion,
                                   updatedAt := db1.clock, updatedBy := uid,
                                   language := languageTag })
              let db3 := upsertHistory wr.1 script.id nextVersion "snapshot" "generate"
                (some "post") finalText uid
              (db3, .ok { id := script.id, presenterId := pid, content := finalText,
                          language := languageTag, version := nextVersion,
                          updatedAt := wr.1.clock, updatedBy := uid })

/-! ## Helper lemmas -/

theorem upsertHistory_script (db : DB) (sid : Nat) (v : Int) (src reason : String)
    (phase : Option String) (content : String) (uid : Nat) :
    (upsertHistory db sid v src reason phase content uid).script = db.script := by
  unfold upsertHistory
  split <;> rfl

theorem findByPresenter_eq (db : DB) (pid : Nat) (s : Script)
    (h : findByPresenter db pid = some s) : db.script = some s := by
  unfold findByPresenter at h
  cases hs : db.script with
  | none => rw [hs] at h; simp [Option.bind] at h
  | some t =>
    rw [hs] at h
    simp only [Option.bind] at h
    split at h
    · cases h; rfl
    · cases h

theorem findById_eq (db : DB) (sid : Nat) (s : Script)
    (h : findById db sid = some s) : db.script = some s ∧ s.id = sid := by
  unfold findById at h
  cases hs : db.script with
  | none => rw [hs] at h; simp [Option.bind] at h
  | some t =>
    rw [hs] at h
    simp only [Option.bind] at h
    split at h
    next heq =>
      cases h
      exact ⟨rfl, eq_of_beq heq⟩
    next => cases h

/-! ## Claim theorems -/

/-- Claim C1: a save on an existing document with `force = false` and a
provided `expectedVersion` that differs from the stored version returns a
`Conflict` carrying the current server content and version, and leaves the
database — document content and version included — unchanged. -/
theorem save_conflict_detection (db : DB) (uid pid : Nat) (s : Script)
    (c : String) (v : Int) (hfind : findByPresenter db pid = some s)
    (hv : v ≠ s.version) :
    patchPresenterScript db uid pid ⟨some c, false, .vnum v⟩ =
      (db, .conflict s.version s.content) := by
  unfold patchPresenterScript
  simp only [hfind]
  unfold saverWrite conflictCheck
  have : (s.version != v) = true := by
    simp only [bne_iff_ne, ne_eq]
    exact fun h => hv h.symm
  simp [this]

/-- Witness for `save_conflict_detection` at a concrete database. -/
theorem save_conflict_detection_witness :
    patchPresenterScript
        ⟨some ⟨10, 1, "server text", "ro", 3, 0, 7⟩, [], 5⟩ 7 1
        ⟨some "client text", false, .vnum 2⟩ =
      (⟨some ⟨10, 1, "server text", "ro", 3, 0, 7⟩, [], 5⟩,
       .conflict 3 "server text") :=
  save_conflict_detection ⟨some ⟨10, 1, "server text", "ro", 3, 0, 7⟩, [], 5⟩ 7 1
    ⟨10, 1, "server text", "ro", 3, 0, 7⟩ "client text" 2 (by decide) (by decide)

/-- Claim C9: `listVersions` returns history entries newest-first (each entry
at least as recent as the next), bounded by the effective limit, which
defaults to 30 when absent, never exceeds the hard cap 200, and never exceeds
a requested positive value. -/
theorem listVersions_order_and_limit (db : DB) (pid : Nat) (p : Option Int) :
    List.Sorted newerFirst (listVersions db pid p) ∧
    (listVersions db pid p).length ≤ (effLimit p).toNat ∧
    (listVersions db pid p).length ≤ 200 ∧
    effLimit none = 30 ∧
    (∀ q : Int, effLimit (some q) ≤ 200) ∧
    (∀ q : Int, 1 ≤ q → effLimit (some q) ≤ q) := by
  have hcap : ∀ q : Option Int, effLimit q ≤ 200 := by
    intro q; unfold effLimit; exact min_le_right _ _
  have hlen : (listVersions db pid p).length ≤ (effLimit p).toNat := by
    unfold listVersions
    split
    · simp
    · simp only [List.length_take]
      exact Nat.min_le_left _ _
  refine ⟨?_, hlen, ?_, by decide, fun q => hcap (some q), ?_⟩
  · unfold listVersions
    split
    · exact List.sorted_nil
    · exact List.Pairwise.sublist (List.take_sublist _ _)
        (List.sorted_insertionSort newerFirst _)
  · calc (listVersions db pid p).length ≤ (effLimit p).toNat := hlen
      _ ≤ (200 : Int).toNat := Int.toNat_le_toNat (hcap p)
      _ = 200 := rfl
  · intro q hq
    unfold effLimit
    simp only [Option.getD]
    exact le_trans (min_le_left _ _) (by omega)

/-- Witness for `listVersions_order_and_limit` at a concrete database and a
requested limit of 500 (clamped to 200). -/
theorem listVersions_order_and_limit_witness :
    List.Sorted newerFirst
      (listVersions ⟨some ⟨10, 1, "txt", "ro", 2, 0, 7⟩,
        [⟨0, 10, 1, "snapshot", "bootstrap", none, "", 0, 7⟩,
         ⟨1, 10, 2, "autosave", "save", none, "txt", 4, 7⟩], 5⟩ 1 (some 500)) ∧
    (listVersions ⟨some ⟨10, 1, "txt", "ro", 2, 0, 7⟩,
        [⟨0, 10, 1, "snapshot", "bootstrap", none, "", 0, 7⟩,
         ⟨1, 10, 2, "autosave", "save", none, "txt", 4, 7⟩], 5⟩ 1 (some 500)).length ≤
      (effLimit (some 500)).toNat ∧
    (listVersions ⟨some ⟨10, 1, "txt", "ro", 2, 0, 7⟩,
        [⟨0, 10, 1, "snapshot", "bootstrap", none, "", 0, 7⟩,
         ⟨1, 10, 2, "autosave", "save", none, "txt", 4, 7⟩], 5⟩ 1 (some 500)).length ≤
      200 ∧
    effLimit none = 30 ∧
    (∀ q : Int, effLimit (some q) ≤ 200) ∧
    (∀ q : Int, 1 ≤ q → effLimit (some q) ≤ q) :=
  listVersions_order_and_limit
    ⟨some ⟨10, 1, "txt", "ro", 2, 0, 7⟩,
     [⟨0, 10, 1, "snapshot", "bootstrap", none, "", 0, 7⟩,
      ⟨1, 10, 2, "autosave", "save", none, "txt", 4, 7⟩], 5⟩ 1 (some 500)

/-- Claim C10: the direct script-save endpoint reads no `expectedVersion` or
`force` and compares no versions — any call with an existing script and a
string body unconditionally overwrites the content, bumps the version by one,
and no call on this path ever returns a `Conflict`. -/
theorem direct_patch_bypasses_concurrency (db : DB) (uid sid : Nat)
    (c : String) (s : Script) (hfind : findById db sid = some s) :
    (patchScriptDirect db uid sid (some c)).2 =
      .ok { s with content := c, version := s.version + 1,
                   updatedAt := db.clock, updatedBy := uid } ∧
    ∀ (db₂ : DB) (body : Option String) (v : Int) (sc : String),
      (patchScriptDirect db₂ uid sid body).2 ≠ .conflict v sc := by
  constructor
  · obtain ⟨hscript, hid⟩ := findById_eq db sid s hfind
    unfold patchScriptDirect
    simp only [hfind]
    unfold updateScriptWhere
    simp [hscript, hid]
  · intro db₂ body v sc
    unfold patchScriptDirect
    split
    · simp
    · split
      · simp
      · unfold updateScriptWhere
        split
        · split <;> simp
        · simp

/-- Witness for `direct_patch_bypasses_concurrency` at a concrete database. -/
theorem direct_patch_bypasses_concurrency_witness :
    (patchScriptDirect ⟨some ⟨10, 1, "old", "ro", 4, 0, 7⟩, [], 5⟩ 7 10 (some "new")).2 =
      .ok ⟨10, 1, "new", "ro", 5, 5, 7⟩ ∧
    ∀ (db₂ : DB) (body : Option String) (v : Int) (sc : String),
      (patchScriptDirect db₂ 7 10 body).2 ≠ .conflict v sc :=
  direct_patch_bypasses_concurrency ⟨some ⟨10, 1, "old", "ro", 4, 0, 7⟩, [], 5⟩ 7 10
    "new" ⟨10, 1, "old", "ro", 4, 0, 7⟩ (by decide)

/-- The four transform outcomes that report a failed generation: the
collaborator threw, returned empty output, returned invalid JSON, or returned
JSON without a usable `finalText`. -/
def genFailureResp (r : Resp) : Prop :=
  r = .err 502 "openai_failed" ∨ r = .err 500 "ai_empty_output" ∨
  r = .err 500 "ai_invalid_json" ∨ r = .err 500 "ai_missing_finalText"

/-- The generation pipeline failed: the collaborator threw, or its output is
empty after trimming, or parsing yields invalid JSON or an empty `finalText`. -/
def genFails (gen : GenResult) (parse : String → ParseResult) : Prop :=
  gen = .gthrow ∨
  (∃ t, gen = .gout t ∧ jsTrim t = "") ∨
  (∃ t, gen = .gout t ∧ parse (jsTrim t) = .pinvalid) ∨
  (∃ t ft, gen = .gout t ∧ parse (jsTrim t) = .pok ft ∧ jsTrim ft = "")

/-- Claim C5: when the text-generation collaborator throws or returns empty or
invalid output, `transformPost` leaves the document row — content and version —
exactly as it was and reports a generation failure. -/
theorem transform_failure_leaves_document (db : DB) (uid sid : Nat)
    (instr : String) (gen : GenResult) (parse : String → ParseResult)
    (script : Script) (hfind : findById db sid = some script)
    (hinstr : jsTrim instr ≠ "") (hfail : genFails gen parse) :
    (transformPost db uid sid instr gen parse).1.script = db.script ∧
    genFailureResp (transformPost db uid sid instr gen parse).2 := by
  have hup := upsertHistory_script db sid script.version "snapshot" "transform"
    (some "pre") script.content uid
  rcases hfail with h | ⟨t, h, htr⟩ | ⟨t, h, hp⟩ | ⟨t, ft, h, hp, hft⟩ <;> subst h
  · unfold transformPost
    rw [if_neg hinstr]
    simp only [hfind]
    exact ⟨hup, Or.inl rfl⟩
  · unfold transformPost
    rw [if_neg hinstr]
    simp only [hfind, htr, if_pos rfl]
    exact ⟨hup, Or.inr (Or.inl rfl)⟩
  · unfold transformPost
    rw [if_neg hinstr]
    simp only [hfind]
    by_cases htr : jsTrim t = ""
    · simp only [htr, if_pos rfl]
      exact ⟨hup, Or.inr (Or.inl rfl)⟩
    · rw [if_neg htr]
      simp only [hp]
      exact ⟨hup, Or.inr (Or.inr (Or.inl rfl))⟩
  · unfold transformPost
    rw [if_neg hinstr]
    simp only [hfind]
    by_cases htr : jsTrim t = ""
    · simp only [htr, if_pos rfl]
      exact ⟨hup, Or.inr (Or.inl rfl)⟩
    · rw [if_neg htr]
      simp only [hp, hft, if_pos rfl]
      exact ⟨hup, Or.inr (Or.inr (Or.inr rfl))⟩

/-- Witness for `transform_failure_leaves_document`: a throwing generator on a
concrete database. -/
theorem transform_failure_leaves_document_witness :
    (transformPost ⟨some ⟨10, 1, "base", "ro", 3, 0, 7⟩, [], 5⟩ 7 10 "shorten"
        .gthrow (fun _ => .pinvalid)).1.script =
      (⟨some ⟨10, 1, "base", "ro", 3, 0, 7⟩, [], 5⟩ : DB).script ∧
    genFailureResp
      (transformPost ⟨some ⟨10, 1, "base", "ro", 3, 0, 7⟩, [], 5⟩ 7 10 "shorten"
        .gthrow (fun _ => .pinvalid)).2 :=
  transform_failure_leaves_document ⟨some ⟨10, 1, "base", "ro", 3, 0, 7⟩, [], 5⟩ 7 10
    "shorten" .gthrow (fun _ => .pinvalid) ⟨10, 1, "base", "ro", 3, 0, 7⟩
    (by decide) (by decide) (Or.inl rfl)

/-- Claim C6 counterexample: against the claim that `transform` rejects
generated outputs whose whitespace-normalized length is under the minimum
threshold, the transform handler commits an 8-character generator output: the
document's content becomes `"short js"`, its version is bumped to 2, and the
caller receives a success, not a "content too short" signal. -/
theorem transform_short_output_committed_cex :
    ("short js".length = 8 ∧ (normalizeWs "short js").length < 80) ∧
    transformPost ⟨some ⟨10, 1, "a long enough base script", "ro", 1, 0, 7⟩, [], 5⟩
        7 10 "make it shorter" (.gout "json") (fun _ => .pok "short js") =
      (⟨some ⟨10, 1, "short js", "ro", 2, 6, 7⟩,
        [⟨6, 10, 2, "snapshot", "transform", some "post", "short js", 6, 7⟩,
         ⟨5, 10, 1, "snapshot", "transform", some "pre",
          "a long enough base script", 5, 7⟩], 7⟩,
       .ok ⟨10, 1, "short js", "ro", 2, 6, 7⟩) ∧
    (⟨some ⟨10, 1, "short js", "ro", 2, 6, 7⟩, [], 7⟩ : DB).script ≠
      (⟨some ⟨10, 1, "a long enough base script", "ro", 1, 0, 7⟩, [], 5⟩ : DB).script := by
  refine ⟨⟨rfl, by decide⟩, ?_, by decide⟩
  rfl

/-- Claim C6 as amended: the transform handler enforces no minimum-length
threshold — any generator output with a non-empty `finalText` is committed,
replacing the content and bumping the version — while the whitespace-normalized
80-character minimum with the distinguishable `ai_output_too_short` signal and
untouched document is enforced by the generate handler. -/
theorem transform_no_threshold_generate_threshold :
    (∀ (db : DB) (uid sid : Nat) (instr t ft : String)
       (parse : String → ParseResult) (script : Script),
       findById db sid = some script → jsTrim instr ≠ "" → jsTrim t ≠ "" →
       parse (jsTrim t) = .pok ft → jsTrim ft ≠ "" →
       ∃ s', (transformPost db uid sid instr (.gout t) parse).2 = .ok s' ∧
         s'.content = jsTrim ft ∧ s'.version = script.version + 1) ∧
    (∀ (db : DB) (uid pid : Nat) (lt t ft : String)
       (parse : String → ParseResult) (script : Script),
       findByPresenter db pid = some script → jsTrim t ≠ "" →
       parse (jsTrim t) = .pok ft → jsTrim ft ≠ "" →
       (normalizeWs (jsTrim ft)).length < 80 →
       generatePost db uid pid lt (.gout t) parse =
         (db, .err 422 "ai_output_too_short")) := by
  constructor
  · intro db uid sid instr t ft parse script hfind hinstr ht hp hft
    obtain ⟨hscript, hid⟩ := findById_eq db sid script hfind
    unfold transformPost
    rw [if_neg hinstr]
    simp only [hfind]
    rw [if_neg ht]
    simp only [hp]
    rw [if_neg hft]
    unfold updateScriptWhere
    rw [upsertHistory_script, hscript]
    simp only [hid, beq_self_eq_true, if_true]
    exact ⟨_, rfl, rfl, rfl⟩
  · intro db uid pid lt t ft parse script hfind ht hp hft hlen
    unfold generatePost
    simp only [hfind]
    rw [if_neg ht]
    simp only [hp]
    rw [if_neg hft, if_pos hlen]

/-- Witness for `transform_no_threshold_generate_threshold` at concrete
inputs: an 8-character transform output is committed, and the same output is
rejected as too short by the generate handler. -/
theorem transform_no_threshold_generate_threshold_witness :
    (∃ s', (transformPost ⟨some ⟨10, 1, "base", "ro", 1, 0, 7⟩, [], 5⟩ 7 10
        "make it shorter" (.gout "json") (fun _ => .pok "short js")).2 = .ok s' ∧
      s'.content = jsTrim "short js" ∧ s'.version = (1 : Int) + 1) ∧
    generatePost ⟨some ⟨10, 1, "base", "ro", 1, 0, 7⟩, [], 5⟩ 7 1 "en"
        (.gout "json") (fun _ => .pok "short js") =
      (⟨some ⟨10, 1, "base", "ro", 1, 0, 7⟩, [], 5⟩, .err 422 "ai_output_too_short") :=
  ⟨transform_no_threshold_generate_threshold.1
      ⟨some ⟨10, 1, "base", "ro", 1, 0, 7⟩, [], 5⟩ 7 10 "make it shorter" "json"
      "short js" (fun _ => .pok "short js") ⟨10, 1, "base", "ro", 1, 0, 7⟩
      (by decide) (by decide) (by decide) rfl (by decide),
   transform_no_threshold_generate_threshold.2
      ⟨some ⟨10, 1, "base", "ro", 1, 0, 7⟩, [], 5⟩ 7 1 "en" "json" "short js"
      (fun _ => .pok "short js") ⟨10, 1, "base", "ro", 1, 0, 7⟩
      (by decide) (by decide) rfl (by decide) (by decide)⟩

/-- Claim C8 counterexample: for a fresh owner, `ensure` creates the document
(empty content, language `"ro"`, version 1) and one matching history entry —
but that entry is recorded with `source = "snapshot"` and
`meta.reason = "bootstrap"`, so `listVersions` returns no entry whose `source`
field is `"bootstrap"`. -/
theorem ensure_bootstrap_source_cex :
    ensurePresenterScript ⟨none, [], 0⟩ 7 1 =
      (⟨some ⟨0, 1, "", "ro", 1, 0, 7⟩,
        [⟨1, 0, 1, "snapshot", "bootstrap", none, "", 1, 7⟩], 2⟩,
       .ok ⟨0, 1, "", "ro", 1, 0, 7⟩) ∧
    listVersions ⟨some ⟨0, 1, "", "ro", 1, 0, 7⟩,
        [⟨1, 0, 1, "snapshot", "bootstrap", none, "", 1, 7⟩], 2⟩ 1 none =
      [⟨1, 0, 1, "snapshot", "bootstrap", none, "", 1, 7⟩] ∧
    (⟨1, 0, 1, "snapshot", "bootstrap", none, "", 1, 7⟩ : HEntry).source ≠ "bootstrap" := by
  refine ⟨rfl, ?_, by decide⟩
  rfl

/-- Claim C8 as amended: for an owner with no existing document, `ensure`
creates a Document with empty content, default language `"ro"` and version 1,
and writes one matching bootstrap history entry — recorded with
`source = "snapshot"` and `meta.reason = "bootstrap"` — so that `listVersions`
afterwards returns exactly that one entry. -/
theorem ensure_bootstrap (db : DB) (uid pid : Nat)
    (hs : db.script = none) (hh : db.history = []) :
    ∃ db' s e, ensurePresenterScript db uid pid = (db', .ok s) ∧
      s.content = "" ∧ s.language = "ro" ∧ s.version = 1 ∧
      listVersions db' pid none = [e] ∧
      e.source = "snapshot" ∧ e.metaReason = "bootstrap" ∧
      e.version = 1 ∧ e.content = "" := by
  obtain ⟨sc, hi, c⟩ := db
  simp only at hs hh
  subst hs hh
  refine ⟨⟨some ⟨c, pid, "", "ro", 1, c, uid⟩,
          [⟨c + 1, c, 1, "snapshot", "bootstrap", none, "", c + 1, uid⟩], c + 2⟩,
        ⟨c, pid, "", "ro", 1, c, uid⟩,
        ⟨c + 1, c, 1, "snapshot", "bootstrap", none, "", c + 1, uid⟩,
        rfl, rfl, rfl, rfl, ?_, rfl, rfl, rfl, rfl⟩
  unfold listVersions findByPresenter
  simp [Option.bind, beq_self_eq_true, List.filter_cons]
  decide

/-- Witness for `ensure_bootstrap` at the empty database. -/
theorem ensure_bootstrap_witness :
    ∃ db' s e, ensurePresenterScript ⟨none, [], 0⟩ 7 1 = (db', .ok s) ∧
      s.content = "" ∧ s.language = "ro" ∧ s.version = 1 ∧
      listVersions db' 1 none = [e] ∧
      e.source = "snapshot" ∧ e.metaReason = "bootstrap" ∧
      e.version = 1 ∧ e.content = "" :=
  ensure_bootstrap ⟨none, [], 0⟩ 7 1 rfl rfl

/-- Claim C7: the manual snapshot endpoint performs a plain insert at the
document's current `(script_id, version)` and throws on the uniqueness
violation — called when a history entry already exists at the current version
(the normal state, since every accepted mutation writes one there) it returns
`internal_error` (500) instead of the duplicate-safe no-op with the existing
entry that the spec requires; here, evaluated at such a state. -/
theorem snapshot_duplicate_errors :
    hasVersion [⟨0, 10, 1, "snapshot", "bootstrap", none, "", 0, 7⟩] 10 1 = true ∧
    postVersionSnapshot
        ⟨some ⟨10, 1, "txt", "ro", 1, 0, 7⟩,
         [⟨0, 10, 1, "snapshot", "bootstrap", none, "", 0, 7⟩], 5⟩ 7 1 =
      (⟨some ⟨10, 1, "txt", "ro", 1, 0, 7⟩,
        [⟨0, 10, 1, "snapshot", "bootstrap", none, "", 0, 7⟩], 5⟩,
       .err 500 "internal_error") := by
  exact ⟨rfl, rfl⟩

/-- Claim C4: a restore of a history entry that does belong to the document
mutates the document row (content set to the entry's content, version bumped)
and then fails: the second history insert collides with the pre-restore
snapshot already written at the same `(script_id, version)`, so the handler
throws and answers `internal_error` (500) instead of the updated Document —
evaluated here at a document at version 3 restoring its version-2 entry. -/
theorem restore_double_insert_bug :
    restorePost
        ⟨some ⟨10, 1, "current text", "ro", 3, 0, 7⟩,
         [⟨5, 10, 2, "snapshot", "manual", none, "old text", 0, 7⟩], 6⟩ 7 1 5 =
      (⟨some ⟨10, 1, "old text", "ro", 4, 7, 7⟩,
        [⟨6, 10, 4, "snapshot", "pre_restore_snapshot", none, "current text", 6, 7⟩,
         ⟨5, 10, 2, "snapshot", "manual", none, "old text", 0, 7⟩], 7⟩,
       .err 500 "internal_error") ∧
    restorePost
        ⟨some ⟨10, 1, "current text", "ro", 3, 0, 7⟩,
         [⟨99, 77, 2, "snapshot", "manual", none, "other doc", 0, 7⟩], 6⟩ 7 1 99 =
      (⟨some ⟨10, 1, "current text", "ro", 3, 0, 7⟩,
        [⟨99, 77, 2, "snapshot", "manual", none, "other doc", 0, 7⟩], 6⟩,
       .err 404 "version_not_found") := by
  exact ⟨rfl, rfl⟩

/-- Two concurrent executions of the save handler interleaved as
`readA; readB; checkWriteA; checkWriteB`: each handler performs its own two
steps in program order — the read (`.select(..).single()`), then the
version check plus the update evaluated against that earlier read
(`saverWrite`).  Returns the state after A's write, the final state, and both
responses (`none` when the document is missing, in which case both handlers
404). -/
def lostUpdateRun (db0 : DB) (pid uA uB : Nat) (forceA forceB : Bool)
    (vfA vfB : VersionField) (cA cB : String) : Option (DB × DB × Resp × Resp) :=
  match findByPresenter db0 pid with
  | none => none
  | some currentA =>
    match findByPresenter db0 pid with
    | none => none
    | some currentB =>
      let p1 := saverWrite db0 uA forceA vfA cA "autosave" "save" currentA
      let p2 := saverWrite p1.1 uB forceB vfB cB "autosave" "save" currentB
      some (p1.1, p2.1, p1.2, p2.2)

theorem saverWrite_pass (db : DB) (cur read : Script) (uid : Nat) (force : Bool)
    (vf : VersionField) (nc src reason : String)
    (hs : db.script = some cur) (hid : cur.id = read.id)
    (hchk : conflictCheck force vf read = false) :
    saverWrite db uid force vf nc src reason read =
      (upsertHistory
         { db with
             script := some
               { cur with
                   content := nc, version := read.version + 1,
                   updatedAt := db.clock, updatedBy := uid } }
         cur.id (read.version + 1) src reason none nc uid,
       .ok { cur with
               content := nc, version := read.version + 1,
               updatedAt := db.clock, updatedBy := uid }) := by
  unfold saverWrite
  rw [hchk]
  simp only [Bool.false_eq_true, if_false]
  unfold updateScriptWhere
  rw [hs]
  have hc : (cur.id == read.id) = true := by rw [hid]; exact beq_self_eq_true _
  simp only [hc, if_true]

/-- Claim C2 counterexample: two writers both read the document at version 1,
both pass the optimistic check against that read with `expectedVersion = 1`,
and both write — B's update succeeds although the stored version at B's write
time is 2, not B's expected 1, because the update is keyed on the row id
alone; both callers get success, B silently overwrites A at the same version
number 2, and no Conflict is reported on the second write. -/
theorem save_lost_update_cex :
    lostUpdateRun
        ⟨some ⟨10, 1, "base", "ro", 1, 0, 7⟩,
         [⟨0, 10, 1, "snapshot", "bootstrap", none, "", 0, 7⟩], 3⟩
        1 7 8 false false (.vnum 1) (.vnum 1) "edit A" "edit B" =
      some (⟨some ⟨10, 1, "edit A", "ro", 2, 3, 7⟩,
             [⟨3, 10, 2, "autosave", "save", none, "edit A", 3, 7⟩,
              ⟨0, 10, 1, "snapshot", "bootstrap", none, "", 0, 7⟩], 4⟩,
            ⟨some ⟨10, 1, "edit B", "ro", 2, 4, 8⟩,
             [⟨3, 10, 2, "autosave", "save", none, "edit A", 3, 7⟩,
              ⟨0, 10, 1, "snapshot", "bootstrap", none, "", 0, 7⟩], 4⟩,
            .ok ⟨10, 1, "edit A", "ro", 2, 3, 7⟩,
            .ok ⟨10, 1, "edit B", "ro", 2, 4, 8⟩) ∧
    ((2 : Int) ≠ 1 ∧ (2 : Int) ≠ 3) := by
  exact ⟨rfl, by decide, by decide⟩

/-- Claim C2 as amended: the version check is evaluated in application code
against an earlier separate read, and the write is an unconditional update
keyed on the row id only — there is no version-equality condition at write
time and no zero-rows-Conflict path — so two concurrent save handlers that
both read the same version both pass the check and both write: both receive
success, each commits `readVersion + 1`, and the second silently overwrites
the first at that same version number (a lost update with a single version
increment for two accepted writes). -/
theorem save_update_not_conditional (db0 : DB) (s0 : Script) (pid uA uB : Nat)
    (cA cB : String) (hs : db0.script = some s0) (hp : s0.presenterId = pid) :
    ∃ dbMid dbF sA sB,
      lostUpdateRun db0 pid uA uB false false
          (.vnum s0.version) (.vnum s0.version) cA cB =
        some (dbMid, dbF, .ok sA, .ok sB) ∧
      dbMid.script = some sA ∧ sA.version = s0.version + 1 ∧ sA.content = cA ∧
      dbF.script = some sB ∧ sB.version = s0.version + 1 ∧ sB.content = cB := by
  have hfind : findByPresenter db0 pid = some s0 := by
    unfold findByPresenter
    rw [hs]
    simp [hp]
  have hchk : conflictCheck false (.vnum s0.version) s0 = false := by
    simp [conflictCheck]
  have h1 := saverWrite_pass db0 s0 s0 uA false
    (.vnum s0.version) cA "autosave" "save" hs rfl hchk
  set A : Script :=
    { s0 with
        content := cA, version := s0.version + 1,
        updatedAt := db0.clock, updatedBy := uA } with hA
  set U : DB := upsertHistory { db0 with script := some A }
    s0.id (s0.version + 1) "autosave" "save" none cA uA with hU
  have hUs : U.script = some A := upsertHistory_script _ _ _ _ _ _ _ _
  have h2 := saverWrite_pass U A s0 uB false
    (.vnum s0.version) cB "autosave" "save" hUs rfl hchk
  set B : Script :=
    { A with
        content := cB, version := s0.version + 1,
        updatedAt := U.clock, updatedBy := uB } with hB
  set W : DB := upsertHistory { U with script := some B }
    A.id (s0.version + 1) "autosave" "save" none cB uB with hW
  have hWs : W.script = some B := upsertHistory_script _ _ _ _ _ _ _ _
  refine ⟨U, W, A, B, ?_, hUs, rfl, rfl, hWs, rfl, rfl⟩
  unfold lostUpdateRun
  rw [hfind]
  simp only [h1, h2]

/-- Witness for `save_update_not_conditional` on a concrete document at
version 1. -/
theorem save_update_not_conditional_witness :
    ∃ dbMid dbF sA sB,
      lostUpdateRun ⟨some ⟨10, 1, "base", "ro", 1, 0, 7⟩, [], 3⟩ 1 7 8 false false
          (.vnum 1) (.vnum 1) "first" "second" =
        some (dbMid, dbF, .ok sA, .ok sB) ∧
      dbMid.script = some sA ∧ sA.version = (1 : Int) + 1 ∧ sA.content = "first" ∧
      dbF.script = some sB ∧ sB.version = (1 : Int) + 1 ∧ sB.content = "second" :=
  save_update_not_conditional ⟨some ⟨10, 1, "base", "ro", 1, 0, 7⟩, [], 3⟩
    ⟨10, 1, "base", "ro", 1, 0, 7⟩ 1 7 8 "first" "second" rfl rfl

/-- A mutation request against one document: a save through the
optimistic-concurrency endpoint, a save through the direct endpoint, an AI
transform (carrying its generator/parse outcome), or a restore. -/
inductive Op where
  | save (b : SaveBody)
  | saveDirect (sid : Nat) (content : Option String)
  | transform (sid : Nat) (instruction : String) (gen : GenResult)
      (parse : String → ParseResult)
  | restore (vid : Nat)

/-- Dispatch one operation to its handler. -/
def applyOp (uid pid : Nat) (db : DB) : Op → DB × Resp
  | .save b => patchPresenterScript db uid pid b
  | .saveDirect sid c => patchScriptDirect db uid sid c
  | .transform sid instr gen parse => transformPost db uid sid instr gen parse
  | .restore vid => restorePost db uid pid vid

/-- Run a sequence of operations, collecting each response with the database
state after it. -/
def runTrace (uid pid : Nat) (db : DB) : List Op → List (Resp × DB)
  | [] => []
  | op :: rest =>
    let r := applyOp uid pid db op
    (r.2, r.1) :: runTrace uid pid r.1 rest

/-- Did the handler answer with the updated document (HTTP 200 + script)? -/
def isOkResp : Resp → Bool
  | .ok _ => true
  | _ => false

/-- The stored document version (0 when no document exists). -/
def ver (db : DB) : Int := (db.script.map Script.version).getD 0

theorem updateScriptWhere_history (db : DB) (c : Script → Bool) (f : Script → Script) :
    (updateScriptWhere db c f).1.history = db.history := by
  unfold updateScriptWhere
  cases hdb : db.script with
  | none => rfl
  | some s =>
    by_cases hc : c s = true
    · simp [hc]
    · simp [hc]

theorem updateScriptWhere_clock (db : DB) (c : Script → Bool) (f : Script → Script) :
    (updateScriptWhere db c f).1.clock = db.clock := by
  unfold updateScriptWhere
  cases hdb : db.script with
  | none => rfl
  | some s =>
    by_cases hc : c s = true
    · simp [hc]
    · simp [hc]

theorem hasVersion_fresh (db : DB) (h : List HEntry) (sid : Nat) (v : Int)
    (src reason : String) (phase : Option String) (content : String) (uid : Nat) :
    hasVersion (freshEntry db sid v src reason phase content uid :: h) sid v = true := by
  simp [hasVersion, freshEntry, List.any_cons]

/-- The restore handler can never answer `ok`: when everything else succeeds,
its second history insert collides on `(script_id, version)` with the
pre-restore snapshot it just wrote, and the handler throws. -/
theorem restorePost_not_ok (db : DB) (uid pid vid : Nat) :
    isOkResp (restorePost db uid pid vid).2 = false := by
  unfold restorePost
  cases hfind : findByPresenter db pid with
  | none => rfl
  | some script =>
    dsimp only
    cases hrow : db.history.find? (fun e => e.id == vid && e.scriptId == script.id) with
    | none => rfl
    | some vRow =>
      dsimp only
      unfold insertHistory
      by_cases hz : hasVersion db.history script.id (script.version + 1) = true
      · simp only [hz, if_true]
        rfl
      · simp only [hz, Bool.false_eq_true, if_false]
        have hsecond :
            hasVersion
              (updateScriptWhere
                { db with
                    history := freshEntry db script.id (script.version + 1) "snapshot"
                      "pre_restore_snapshot" none script.content uid :: db.history,
                    clock := db.clock + 1 }
                (fun s => s.id == script.id)
                (fun s =>
                  { s with
                      content := vRow.content, version := script.version + 1,
                      updatedAt := ({ db with
                        history := freshEntry db script.id (script.version + 1) "snapshot"
                          "pre_restore_snapshot" none script.content uid :: db.history,
                        clock := db.clock + 1 } : DB).clock,
                      updatedBy := uid })).1.history
              script.id (script.version + 1) = true := by
          rw [updateScriptWhere_history]
          exact hasVersion_fresh _ _ _ _ _ _ _ _ _
        simp only [hsecond, if_true]
        rfl

theorem patchPresenterScript_ok_version (db : DB) (uid pid : Nat) (b : SaveBody)
    (s : Script) (hs : db.script = some s) :
    isOkResp (patchPresenterScript db uid pid b).2 = true →
    ∃ t, (patchPresenterScript db uid pid b).1.script = some t ∧
      t.version = s.version + 1 := by
  unfold patchPresenterScript
  rcases b with ⟨c?, force, vf⟩
  cases c? with
  | none => intro h; simp [isOkResp] at h
  | some c =>
    unfold findByPresenter
    rw [hs]
    simp only [Option.bind]
    by_cases hp : (s.presenterId == pid) = true
    · simp only [hp, if_true]
      cases vf with
      | vnan => intro h; simp [isOkResp] at h
      | vnone =>
        unfold saverWrite
        by_cases hc : conflictCheck force .vnone s = true
        · simp only [hc, if_true]
          intro h; simp [isOkResp] at h
        · simp only [hc, Bool.false_eq_true, if_false]
          unfold updateScriptWhere
          rw [hs]
          simp only [beq_self_eq_true, if_true]
          intro _
          exact ⟨_, upsertHistory_script _ _ _ _ _ _ _ _, rfl⟩
      | vnum v =>
        unfold saverWrite
        by_cases hc : conflictCheck force (.vnum v) s = true
        · simp only [hc, if_true]
          intro h; simp [isOkResp] at h
        · simp only [hc, Bool.false_eq_true, if_false]
          unfold updateScriptWhere
          rw [hs]
          simp only [beq_self_eq_true, if_true]
          intro _
          exact ⟨_, upsertHistory_script _ _ _ _ _ _ _ _, rfl⟩
    · simp only [hp, Bool.false_eq_true, if_false]
      cases vf with
      | vnan => intro h; simp [isOkResp] at h
      | vnone => intro h; simp [isOkResp] at h
      | vnum v => intro h; simp [isOkResp] at h

theorem patchScriptDirect_ok_version (db : DB) (uid sid : Nat) (c? : Option String)
    (s : Script) (hs : db.script = some s) :
    isOkResp (patchScriptDirect db uid sid c?).2 = true →
    ∃ t, (patchScriptDirect db uid sid c?).1.script = some t ∧
      t.version = s.version + 1 := by
  unfold patchScriptDirect
  cases c? with
  | none => intro h; simp [isOkResp] at h
  | some c =>
    unfold findById
    rw [hs]
    simp only [Option.bind]
    by_cases hid : (s.id == sid) = true
    · simp only [hid, if_true]
      unfold updateScriptWhere
      rw [hs]
      simp only [hid, if_true]
      intro _
      exact ⟨_, upsertHistory_script _ _ _ _ _ _ _ _, rfl⟩
    · simp only [hid, Bool.false_eq_true, if_false]
      intro h; simp [isOkResp] at h

theorem transformPost_ok_version (db : DB) (uid sid : Nat) (instr : String)
    (gen : GenResult) (parse : String → ParseResult)
    (s : Script) (hs : db.script = some s) :
    isOkResp (transformPost db uid sid instr gen parse).2 = true →
    ∃ t, (transformPost db uid sid instr gen parse).1.script = some t ∧
      t.version = s.version + 1 := by
  unfold transformPost
  by_cases hi : jsTrim instr = ""
  · simp only [hi, if_pos rfl]
    intro h; simp [isOkResp] at h
  · rw [if_neg hi]
    unfold findById
    rw [hs]
    simp only [Option.bind]
    by_cases hid : (s.id == sid) = true
    · simp only [hid, if_true]
      cases gen with
      | gthrow => intro h; simp [isOkResp] at h
      | gout t =>
        dsimp only
        by_cases hj : jsTrim t = ""
        · simp only [hj, if_pos rfl]
          intro h; simp [isOkResp] at h
        · rw [if_neg hj]
          cases hp : parse (jsTrim t) with
          | pinvalid => intro h; simp [isOkResp] at h
          | pok ftRaw =>
            dsimp only
            by_cases hf : jsTrim ftRaw = ""
            · simp only [hf, if_pos rfl]
              intro h; simp [isOkResp] at h
            · rw [if_neg hf]
              unfold updateScriptWhere
              rw [upsertHistory_script, hs]
              simp only [hid, if_true]
              intro _
              exact ⟨_, upsertHistory_script _ _ _ _ _ _ _ _, rfl⟩
    · simp only [hid, Bool.false_eq_true, if_false]
      intro h; simp [isOkResp] at h

theorem applyOp_ok (uid pid : Nat) (db : DB) (op : Op) (s : Script)
    (hs : db.script = some s) (hok : isOkResp (applyOp uid pid db op).2 = true) :
    ∃ t, (applyOp uid pid db op).1.script = some t ∧ t.version = s.version + 1 := by
  cases op with
  | save b => exact patchPresenterScript_ok_version db uid pid b s hs hok
  | saveDirect sid c => exact patchScriptDirect_ok_version db uid sid c s hs hok
  | transform sid instr gen parse =>
    exact transformPost_ok_version db uid sid instr gen parse s hs hok
  | restore vid =>
    rw [show applyOp uid pid db (.restore vid) = restorePost db uid pid vid from rfl,
      restorePost_not_ok] at hok
    cases hok

/-- Claim C3: along any run of save / direct-save / transform / restore
operations in which every response is a success, each success sets the stored
version to exactly the previous version plus one — the observed version
sequence is `v0 + 1, v0 + 2, …`, strictly increasing by exactly 1 per success
and with no version produced twice. -/
theorem version_strict_increment (uid pid : Nat) (ops : List Op) :
    ∀ (db : DB) (s : Script), db.script = some s →
    (∀ x ∈ runTrace uid pid db ops, isOkResp x.1 = true) →
    (runTrace uid pid db ops).map (fun x => ver x.2) =
      (List.range ops.length).map (fun k : Nat => s.version + 1 + (k : Int)) := by
  induction ops with
  | nil => intro db s _ _; rfl
  | cons op rest ih =>
    intro db s hs hok
    simp only [runTrace] at hok ⊢
    have hhead := hok _ (List.mem_cons_self _ _)
    obtain ⟨t, ht, hv⟩ := applyOp_ok uid pid db op s hs hhead
    have htail := ih (applyOp uid pid db op).1 t ht
      (fun x hx => hok x (List.mem_cons_of_mem _ hx))
    have hver : ver (applyOp uid pid db op).1 = s.version + 1 := by
      unfold ver
      rw [ht]
      simpa using hv
    rw [List.map_cons, List.length_cons, List.range_succ_eq_map, List.map_cons,
      List.map_map, hver, htail]
    have hcongr : ∀ k ∈ List.range rest.length,
        t.version + 1 + (k : Int) = s.version + 1 + ((Nat.succ k : Nat) : Int) := by
      intro k _
      rw [hv]
      push_cast
      ring
    rw [List.map_congr_left hcongr]
    simp [Function.comp]

/-- Witness for `version_strict_increment`: a save, a transform and a second
save all succeed in sequence on a document starting at version 1, observing
versions 2, 3, 4. -/
theorem version_strict_increment_witness :
    (runTrace 7 1 ⟨some ⟨10, 1, "start", "ro", 1, 0, 7⟩, [], 3⟩
        [.save ⟨some "one", false, .vnum 1⟩,
         .transform 10 "improve" (.gout "x") (fun _ => .pok "better text"),
         .save ⟨some "two", false, .vnum 3⟩]).map (fun x => ver x.2) =
      (List.range 3).map (fun k : Nat => (1 : Int) + 1 + (k : Int)) :=
  version_strict_increment 7 1
    [.save ⟨some "one", false, .vnum 1⟩,
     .transform 10 "improve" (.gout "x") (fun _ => .pok "better text"),
     .save ⟨some "two", false, .vnum 3⟩]
    ⟨some ⟨10, 1, "start", "ro", 1, 0, 7⟩, [], 3⟩ ⟨10, 1, "start", "ro", 1, 0, 7⟩
    rfl (by decide)

end IDive
